import Mathlib

/-!
Verification of the steady-state `Transport` engine of OpenPNM
(`openpnm/algorithms/_transport.py`): assembly of the linear system
`A x = b` from per-throat conductances, boundary-condition injection,
pre-solve validation, and the caching of the pure (BC-free) matrix.

Modelling conventions.
* Machine floats are modelled by `Fval`: `nan`, `pinf`, `ninf` or a
  finite rational.  All arithmetic the claims touch happens on finite
  entries only, so finite values carry a `ℚ`.
* Sparse matrices are modelled by their numeric content, a total
  function `Fin Np → Fin Np → ℚ`; `eliminate_zeros` (a storage
  compaction) is the identity on this representation.
* Python exceptions are modelled by `Except String`; object-attribute
  mutation is explicit state passing, and a routine that both mutates
  and may raise returns the state it had mutated at the moment of the
  raise, as the live Python object would retain it.
-/

namespace OpenPNM

/-- A float cell: not-a-number, plus or minus infinity, or a finite value. -/
inductive Fval where
  | nan : Fval
  | pinf : Fval
  | ninf : Fval
  | fin : ℚ → Fval
deriving DecidableEq, Repr

/-- Model of `np.isfinite` on one cell. -/
def Fval.isFinite : Fval → Bool
  | .fin _ => true
  | _ => false

/-- Model of `np.isnan` on one cell. -/
def Fval.isNan : Fval → Bool
  | .nan => true
  | _ => false

/-- The rational carried by a finite cell (junk `0` on non-finite cells;
only ever read where the code has tested `isfinite`). -/
def Fval.toQ : Fval → ℚ
  | .fin q => q
  | _ => 0

/-- The network topology the algorithm reads: `Np` pores, `Nt` throats,
each throat an ordered pair of distinct incident pores
(`network['throat.conns']`). -/
structure Network (Np Nt : ℕ) where
  conns : Fin Nt → Fin Np × Fin Np
  conns_ne : ∀ t, (conns t).1 ≠ (conns t).2

variable {Np Nt : ℕ}

/-- Modelled from the spec: `network.create_adjacency_matrix(weights=g,
fmt='coo')` (the network class is not part of the source slice).  Per the
spec it converts the per-throat conductance array plus the pore-pair
connectivity into a symmetric weighted adjacency structure. -/
def adjW (net : Network Np Nt) (g : Fin Nt → ℚ) (i j : Fin Np) : ℚ :=
  ∑ t, if net.conns t = (i, j) ∨ net.conns t = (j, i) then g t else 0

/-- `scipy.sparse.csgraph.laplacian` of the adjacency structure, per its
documented contract `L = D - W` with `D` the diagonal of row sums of `W`:
this is the pure (BC-free) matrix `_build_A` stores in `self._pure_A`. -/
def pureLaplacian (net : Network Np Nt) (g : Fin Nt → ℚ) : Fin Np → Fin Np → ℚ :=
  fun i j => if i = j then ∑ k, adjW net g i k else -(adjW net g i j)

/-- Throat `t` is incident to pore `i`. -/
def incident (net : Network Np Nt) (t : Fin Nt) (i : Fin Np) : Prop :=
  (net.conns t).1 = i ∨ (net.conns t).2 = i

instance (net : Network Np Nt) (t : Fin Nt) (i : Fin Np) :
    Decidable (incident net t i) :=
  inferInstanceAs (Decidable ((net.conns t).1 = i ∨ (net.conns t).2 = i))

/-- `self.A.diagonal().mean()` (line 149): sum of the diagonal over `Np`. -/
def diagMean (A : Fin Np → Fin Np → ℚ) : ℚ :=
  (∑ i, A i i) / (Np : ℚ)

/-- The state `_apply_BCs` reads and writes: the two BC arrays
`pore.bc.rate` and `pore.bc.value`, the live matrix `A` and the live
right-hand side `b`. -/
structure SysState (Np : ℕ) where
  rate : Fin Np → Fval
  value : Fin Np → Fval
  A : Fin Np → Fin Np → ℚ
  b : Fin Np → ℚ

/-- `b` after the rate-BC pass (lines 144-147): overwrite `b[i]` with
`bc.rate[i]` wherever the latter is finite. -/
def bAfterRate (s : SysState Np) : Fin Np → ℚ :=
  fun i => if (s.rate i).isFinite then (s.rate i).toQ else s.b i

/-- The vector `x_BC` of lines 154-155: the BC value where finite, else 0. -/
def xBC (s : SysState Np) : Fin Np → ℚ :=
  fun i => if (s.value i).isFinite then (s.value i).toQ else 0

/-- `Transport._apply_BCs` (lines 139-166).  Rate pass first; then with
`f` the mean diagonal and `ind` the finite entries of `pore.bc.value`:
`b[ind] = value[ind]*f`, `b[~ind] -= (A @ x_BC)[~ind]`, every stored entry
of `A` in a BC row or column is zeroed, the BC diagonal entries are set to
`f` (`setdiag` restores the other diagonal entries unchanged), and
`eliminate_zeros` compacts storage without changing numeric content. -/
def applyBCs (s : SysState Np) : SysState Np :=
  let f := diagMean s.A
  let b2 : Fin Np → ℚ := fun i =>
    if (s.value i).isFinite then (s.value i).toQ * f
    else bAfterRate s i - ∑ j, s.A i j * xBC s j
  let A2 : Fin Np → Fin Np → ℚ := fun i j =>
    if i = j then (if (s.value i).isFinite then f else s.A i j)
    else if (s.value i).isFinite ∨ (s.value j).isFinite then 0 else s.A i j
  { s with A := A2, b := b2 }

/-- The BC-bearing pore mask of `_validate_topology_health` (line 247):
`~np.isnan(bc.rate) + ~np.isnan(bc.value)` (elementwise boolean or). -/
def bcPores (rate value : Fin Np → Fval) : Fin Np → Bool :=
  fun i => (!(rate i).isNan) || (!(value i).isNan)

/-- The adjacency structure is symmetric. -/
lemma adjW_symm (net : Network Np Nt) (g : Fin Nt → ℚ) (i j : Fin Np) :
    adjW net g i j = adjW net g j i := by
  unfold adjW
  exact Finset.sum_congr rfl fun t _ => if_congr or_comm rfl rfl

/-- No throat joins a pore to itself, so the adjacency diagonal is zero. -/
lemma adjW_diag_eq_zero (net : Network Np Nt) (g : Fin Nt → ℚ) (i : Fin Np) :
    adjW net g i i = 0 := by
  refine Finset.sum_eq_zero fun t _ => ?_
  rw [if_neg]
  rintro (h | h) <;> exact net.conns_ne t (by rw [h])

/-- The degree entry of pore `i` is the sum of the conductances of the
throats incident to `i`. -/
lemma adjW_row_sum (net : Network Np Nt) (g : Fin Nt → ℚ) (i : Fin Np) :
    ∑ k, adjW net g i k = ∑ t, if incident net t i then g t else 0 := by
  unfold adjW
  rw [Finset.sum_comm]
  refine Finset.sum_congr rfl fun t _ => ?_
  by_cases hti : incident net t i
  · rw [if_pos hti]
    rcases hti with h1 | h2
    · refine (Finset.sum_eq_single_of_mem ((net.conns t).2)
        (Finset.mem_univ _) ?_).trans ?_
      · intro k _ hk
        rw [if_neg]
        rintro (hc | hc)
        · exact hk (congrArg Prod.snd hc).symm
        · exact net.conns_ne t (h1.trans (congrArg Prod.snd hc).symm)
      · exact if_pos (Or.inl (by rw [← h1]))
    · have hne1 : (net.conns t).1 ≠ i := fun h1 => net.conns_ne t (h1.trans h2.symm)
      refine (Finset.sum_eq_single_of_mem ((net.conns t).1)
        (Finset.mem_univ _) ?_).trans ?_
      · intro k _ hk
        rw [if_neg]
        rintro (hc | hc)
        · exact hne1 (congrArg Prod.fst hc)
        · exact hk (congrArg Prod.fst hc).symm
      · exact if_pos (Or.inr (by rw [← h2]))
  · rw [if_neg hti]
    refine Finset.sum_eq_zero fun k _ => ?_
    rw [if_neg]
    rintro (hc | hc)
    · exact hti (Or.inl (congrArg Prod.fst hc))
    · exact hti (Or.inr (congrArg Prod.snd hc))

/-- Claim C3: for every nonnegative conductance array, the pure matrix
produced by `_build_A` (before any boundary conditions) is symmetric and
every one of its rows sums to zero. -/
theorem claim3_pure_A_symmetric_rows_zero (net : Network Np Nt)
    (g : Fin Nt → ℚ) (hg : ∀ t, 0 ≤ g t) :
    (∀ i j, pureLaplacian net g i j = pureLaplacian net g j i) ∧
    (∀ i, ∑ j, pureLaplacian net g i j = 0) := by
  constructor
  · intro i j
    unfold pureLaplacian
    by_cases hij : i = j
    · subst hij; rfl
    · rw [if_neg hij, if_neg (Ne.symm hij), adjW_symm]
  · intro i
    have h : ∀ j, pureLaplacian net g i j =
        (if i = j then (∑ k, adjW net g i k) + adjW net g i i else 0)
          - adjW net g i j := by
      intro j
      by_cases hij : i = j
      · subst hij
        simp [pureLaplacian]
      · simp [pureLaplacian, hij]
    rw [Finset.sum_congr rfl fun j _ => h j, Finset.sum_sub_distrib,
      Finset.sum_ite_eq, if_pos (Finset.mem_univ i), adjW_diag_eq_zero]
    ring

/-- A two-pore, one-throat network (pores 0 and 1 joined by throat 0). -/
def net21 : Network 2 1 where
  conns := fun _ => (0, 1)
  conns_ne := fun _ => (by decide : (0 : Fin 2) ≠ (1 : Fin 2))

/-- Unit conductance on `net21`. -/
def g21 : Fin 1 → ℚ := fun _ => 1

/-- Witness for C3 at `net21` with unit conductance. -/
theorem claim3_witness :
    (∀ t, (0 : ℚ) ≤ g21 t) ∧
    (∀ i j, pureLaplacian net21 g21 i j = pureLaplacian net21 g21 j i) ∧
    (∀ i, ∑ j, pureLaplacian net21 g21 i j = 0) :=
  ⟨fun t => by norm_num [g21],
    (claim3_pure_A_symmetric_rows_zero net21 g21 fun t => by norm_num [g21]).1,
    (claim3_pure_A_symmetric_rows_zero net21 g21 fun t => by norm_num [g21]).2⟩

/-- Counterexample to claim C2 as stated: on the two-pore network with unit
conductance the diagonal entry of the pure matrix at pore 0 is `+1`, the
sum of the incident conductances, not its negative. -/
theorem claim2_counterexample :
    pureLaplacian net21 g21 0 0 = 1 ∧
    pureLaplacian net21 g21 0 0 ≠
      -(∑ t, if incident net21 t 0 then g21 t else 0) := by
  have h1 : pureLaplacian net21 g21 0 0 = 1 := by
    simp [pureLaplacian, adjW, net21, g21, Fin.sum_univ_two, Fin.sum_univ_one,
      Prod.ext_iff]
  have h2 : (∑ t, if incident net21 t 0 then g21 t else 0) = 1 := by
    simp [incident, net21, g21, Fin.sum_univ_one]
  refine ⟨h1, ?_⟩
  rw [h1, h2]
  norm_num

/-- Claim C2 (amended): the pure matrix produced by `_build_A` has, at each
pore's diagonal position, the (positive) sum of the conductances of the
throats incident to that pore — scipy's `laplacian` returns `D - W` — and,
at each off-diagonal position for a connected pore pair, the value `-g[t]`
for the connecting throat `t` (stored symmetrically). -/
theorem claim2_pure_A_entries (net : Network Np Nt) (g : Fin Nt → ℚ) :
    (∀ i, pureLaplacian net g i i = ∑ t, if incident net t i then g t else 0) ∧
    (∀ i j t, i ≠ j →
      (net.conns t = (i, j) ∨ net.conns t = (j, i)) →
      (∀ t', t' ≠ t → ¬(net.conns t' = (i, j) ∨ net.conns t' = (j, i))) →
      pureLaplacian net g i j = -(g t)) := by
  constructor
  · intro i
    unfold pureLaplacian
    rw [if_pos rfl, adjW_row_sum]
  · intro i j t hij ht huniq
    unfold pureLaplacian
    rw [if_neg hij]
    congr 1
    unfold adjW
    rw [Finset.sum_eq_single t
      (fun t' _ h' => if_neg (huniq t' h'))
      (fun h => absurd (Finset.mem_univ t) h)]
    rw [if_pos ht]

/-- Witness for the amended C2 at `net21` with unit conductance. -/
theorem claim2_witness :
    pureLaplacian net21 g21 0 0 =
      (∑ t, if incident net21 t 0 then g21 t else 0) ∧
    pureLaplacian net21 g21 0 1 = -(g21 0) :=
  ⟨(claim2_pure_A_entries net21 g21).1 0,
    (claim2_pure_A_entries net21 g21).2 0 1 0 (by decide) (by decide)
      (fun t' ht' => (ht' (Subsingleton.elim t' 0)).elim)⟩

/-- Unfolding of the matrix produced by `_apply_BCs`. -/
lemma applyBCs_A (s : SysState Np) (i j : Fin Np) :
    (applyBCs s).A i j =
      if i = j then (if (s.value i).isFinite then diagMean s.A else s.A i j)
      else if (s.value i).isFinite ∨ (s.value j).isFinite then 0
        else s.A i j := rfl

/-- Unfolding of the right-hand side produced by `_apply_BCs`. -/
lemma applyBCs_b (s : SysState Np) (i : Fin Np) :
    (applyBCs s).b i =
      if (s.value i).isFinite then (s.value i).toQ * diagMean s.A
      else bAfterRate s i - ∑ j, s.A i j * xBC s j := rfl

/-- `_apply_BCs` does not touch the BC arrays themselves. -/
lemma applyBCs_rate (s : SysState Np) : (applyBCs s).rate = s.rate := rfl

/-- A NaN cell is not finite. -/
lemma Fval.isFinite_eq_false_of_isNan {v : Fval} (h : v.isNan = true) :
    v.isFinite = false := by
  cases v <;> simp_all [Fval.isNan, Fval.isFinite]

/-- With no finite entry in `pore.bc.value`, the value-BC pass leaves `A`
untouched. -/
lemma applyBCs_A_of_no_value (s : SysState Np)
    (h : ∀ i, (s.value i).isFinite = false) : (applyBCs s).A = s.A := by
  funext i j
  rw [applyBCs_A]
  by_cases hij : i = j
  · subst hij
    rw [if_pos rfl, if_neg (by simp [h i])]
  · rw [if_neg hij, if_neg (by simp [h i, h j])]

/-- With no finite entry in `pore.bc.value`, the right-hand side after
`_apply_BCs` is exactly the rate-updated `b`. -/
lemma applyBCs_b_of_no_value (s : SysState Np)
    (h : ∀ i, (s.value i).isFinite = false) (i : Fin Np) :
    (applyBCs s).b i = bAfterRate s i := by
  rw [applyBCs_b, if_neg (by simp [h i])]
  have hx : ∀ k, xBC s k = 0 := fun k => by simp [xBC, h k]
  simp [hx]

/-- Claim C1: for every system state whose matrix has nonzero mean diagonal
`f`, and every pore `i` holding a finite entry `v` in `pore.bc.value`,
after `_apply_BCs` row `i` and column `i` of `A` are zero off the diagonal,
`A[i,i] = f`, `b[i] = v*f`, every pore `j` with no finite value-BC entry
has had `(A @ x_BC)[j]` (which includes `A[j,i]*v`, since `x_BC i = v`)
subtracted from its `b[j]`, and consequently any exact solution `x` of
`A·x = b` satisfies `x[i] = v`. -/
theorem claim1_value_bc_constrains_pore (s : SysState Np) (i : Fin Np) (v : ℚ)
    (hf : diagMean s.A ≠ 0) (hv : s.value i = Fval.fin v) :
    (∀ j, j ≠ i → (applyBCs s).A i j = 0 ∧ (applyBCs s).A j i = 0) ∧
    (applyBCs s).A i i = diagMean s.A ∧
    (applyBCs s).b i = v * diagMean s.A ∧
    (∀ j, (s.value j).isFinite = false →
      (applyBCs s).b j = bAfterRate s j - ∑ k, s.A j k * xBC s k) ∧
    xBC s i = v ∧
    (∀ x : Fin Np → ℚ,
      (∀ r, ∑ c, (applyBCs s).A r c * x c = (applyBCs s).b r) → x i = v) := by
  have hfin : (s.value i).isFinite = true := by rw [hv]; rfl
  have hoff : ∀ j, j ≠ i → (applyBCs s).A i j = 0 ∧ (applyBCs s).A j i = 0 := by
    intro j hj
    constructor
    · rw [applyBCs_A, if_neg (fun h => hj h.symm), if_pos (Or.inl hfin)]
    · rw [applyBCs_A, if_neg hj, if_pos (Or.inr hfin)]
  have hdiag : (applyBCs s).A i i = diagMean s.A := by
    rw [applyBCs_A, if_pos rfl, if_pos hfin]
  have hbi : (applyBCs s).b i = v * diagMean s.A := by
    rw [applyBCs_b, if_pos hfin, hv]
    rfl
  refine ⟨hoff, hdiag, hbi, ?_, ?_, ?_⟩
  · intro j hj
    rw [applyBCs_b, if_neg (by simp [hj])]
  · show (if (s.value i).isFinite then (s.value i).toQ else 0) = v
    rw [if_pos hfin, hv]
    rfl
  · intro x hx
    have h := hx i
    rw [Finset.sum_eq_single i
      (fun c _ hc => by rw [(hoff c hc).1, zero_mul])
      (fun hni => absurd (Finset.mem_univ i) hni)] at h
    rw [hdiag, hbi] at h
    exact mul_left_cancel₀ hf (h.trans (mul_comm v (diagMean s.A)))

/-- Concrete two-pore system with a value BC of 3 at pore 0. -/
def sysW1 : SysState 2 where
  rate := fun _ => Fval.nan
  value := fun i => if i = 0 then Fval.fin 3 else Fval.nan
  A := fun i j => if i = j then 2 else -1
  b := fun _ => 0

/-- Witness for C1 at `sysW1`, pore 0, value 3. -/
theorem claim1_witness :
    (applyBCs sysW1).A 0 0 = diagMean sysW1.A ∧
    (applyBCs sysW1).b 0 = 3 * diagMean sysW1.A ∧
    (applyBCs sysW1).A 0 1 = 0 := by
  have hf : diagMean sysW1.A ≠ 0 := by
    norm_num [diagMean, sysW1, Fin.sum_univ_two]
  have hv : sysW1.value 0 = Fval.fin 3 := rfl
  exact ⟨(claim1_value_bc_constrains_pore sysW1 0 3 hf hv).2.1,
    (claim1_value_bc_constrains_pore sysW1 0 3 hf hv).2.2.1,
    ((claim1_value_bc_constrains_pore sysW1 0 3 hf hv).1 1 (by decide)).1⟩

/-- Claim C4: when every entry of `pore.bc.value` is NaN (rate BCs only),
`_apply_BCs` leaves `A` numerically equal to its pure form, and afterwards
`b` equals `pore.bc.rate` at every pore with a finite rate entry and zero
at every other pore. -/
theorem claim4_rate_only_bcs (s : SysState Np)
    (hval : ∀ i, (s.value i).isNan = true) (hb : ∀ i, s.b i = 0) :
    (applyBCs s).A = s.A ∧
    (∀ i, (applyBCs s).b i =
      if (s.rate i).isFinite then (s.rate i).toQ else 0) := by
  have hfin : ∀ i, (s.value i).isFinite = false :=
    fun i => Fval.isFinite_eq_false_of_isNan (hval i)
  refine ⟨applyBCs_A_of_no_value s hfin, fun i => ?_⟩
  rw [applyBCs_b_of_no_value s hfin i]
  unfold bAfterRate
  rw [hb i]

/-- Concrete two-pore system with a rate BC of 7 at pore 0 only. -/
def sysW4 : SysState 2 where
  rate := fun i => if i = 0 then Fval.fin 7 else Fval.nan
  value := fun _ => Fval.nan
  A := fun i j => if i = j then 1 else 0
  b := fun _ => 0

/-- Witness for C4 at `sysW4`. -/
theorem claim4_witness :
    (applyBCs sysW4).A = sysW4.A ∧
    (applyBCs sysW4).b 0 = (Fval.fin 7).toQ ∧
    (applyBCs sysW4).b 1 = 0 := by
  have h := claim4_rate_only_bcs sysW4 (fun i => by fin_cases i <;> rfl)
    (fun i => rfl)
  exact ⟨h.1, by rw [h.2 0]; rfl, by rw [h.2 1]; rfl⟩

/-- Claim C10: a pore whose only BC entry is non-NaN but non-finite (plus
or minus infinity) is counted as BC-bearing by the topology-health mask
(which tests `~isnan`) while `_apply_BCs` (which tests `isfinite`) injects
nothing for it: here, with no finite BC entry anywhere, the mask is true
at `i` yet `A` and `b` are left completely unchanged. -/
theorem claim10_inf_bc_counted_not_applied (s : SysState Np) (i : Fin Np)
    (hval : ∀ j, (s.value j).isFinite = false)
    (hrate : ∀ j, (s.rate j).isFinite = false)
    (hbc : (s.value i).isNan = false ∨ (s.rate i).isNan = false) :
    bcPores s.rate s.value i = true ∧
    (applyBCs s).A = s.A ∧ (applyBCs s).b = s.b := by
  refine ⟨?_, applyBCs_A_of_no_value s hval, ?_⟩
  · rcases hbc with h | h <;> simp [bcPores, h]
  · funext j
    rw [applyBCs_b_of_no_value s hval j]
    unfold bAfterRate
    rw [if_neg (by simp [hrate j])]

/-- Concrete two-pore system whose only BC entry is `+inf` at pore 0. -/
def sysW10 : SysState 2 where
  rate := fun _ => Fval.nan
  value := fun i => if i = 0 then Fval.pinf else Fval.nan
  A := fun i j => if i = j then 2 else -1
  b := fun i => if i = 0 then 5 else 0

/-- Witness for C10 at `sysW10`. -/
theorem claim10_witness :
    bcPores sysW10.rate sysW10.value 0 = true ∧
    (applyBCs sysW10).A = sysW10.A ∧ (applyBCs sysW10).b = sysW10.b :=
  claim10_inf_bc_counted_not_applied sysW10 0
    (fun j => by fin_cases j <;> rfl)
    (fun j => rfl)
    (Or.inl rfl)

/-- The algorithm settings the `run` path reads.  A Python value of `None`
is `none`; a configured string `s` is `some s`.  `TransportSettings`
(lines 45-49) defaults every string setting to the empty string, not to
`None`. -/
structure Settings where
  phase : Option String
  quantity : Option String
  conductance : Option String
  cache : Bool
deriving DecidableEq, Repr

/-- The `TransportSettings` class body (lines 45-48): `phase = ''`,
`quantity = ''`, `conductance = ''`, `cache = True`. -/
def TransportSettings.defaults : Settings :=
  { phase := some "", quantity := some "", conductance := some "",
    cache := true }

/-- `Transport._validate_settings` (lines 234-240): raises only when a
setting `is None`, checking quantity, then conductance, then phase. -/
def validateSettings (s : Settings) : Except String Unit :=
  if s.quantity = none then
    Except.error "\x27quantity\x27 hasn\x27t been defined on this algorithm"
  else if s.conductance = none then
    Except.error "\x27conductance\x27 hasn\x27t been defined on this algorithm"
  else if s.phase = none then
    Except.error "\x27phase\x27 hasn\x27t been defined on this algorithm"
  else Except.ok ()

/-- Whether some throat directly joins pores `i` and `j`. -/
def adjacentB (net : Network Np Nt) (i j : Fin Np) : Bool :=
  decide (∃ t, net.conns t = (i, j) ∨ net.conns t = (j, i))

/-- One breadth step: add every pore adjacent to the current set. -/
def expandStep (net : Network Np Nt) (S : Finset (Fin Np)) : Finset (Fin Np) :=
  S ∪ Finset.univ.filter fun j => ∃ i ∈ S, adjacentB net i j = true

/-- The pores reachable from the pores satisfying `P` (iterating one
breadth step `Np` times saturates any component). -/
def reachableFrom (net : Network Np Nt) (P : Fin Np → Bool) : Finset (Fin Np) :=
  (expandStep net)^[Np] (Finset.univ.filter fun i => P i = true)

/-- Modelled from the spec: `openpnm.topotools.is_fully_connected(network,
pores_BC)` (not part of the source slice).  Per the spec the network
restricted to BC-bearing pores must reach every connected component, i.e.
every pore is reachable from some pore of the mask. -/
def is_fully_connected (net : Network Np Nt) (P : Fin Np → Bool) : Bool :=
  decide (∀ i, i ∈ reachableFrom net P)

/-- The literal message of `_validate_topology_health` (lines 249-251): a
fixed string, independent of which pores are disconnected. -/
def clusteredMsg : String :=
  "Your network is clustered. Run h = net.check_network_health() followed by op.topotools.trim(net, pores=h[\x27disconnected_pores\x27]) to make your network fully connected."

/-- The full algorithm object state that `run` (lines 168-201) reads and
writes: network, conductance array (`phase[settings['conductance']]`),
whether the conductance key is in `iterative_props` (line 96), settings,
the two BC arrays, the stored quantity field `self.x` and
`pore.initial_guess` (absent before first write), the cached pure matrix
`_pure_A`, the live `_A`, the pure and live `_b`, and the `soln`
attribute.  The matrices carry their numeric content as rationals, so the
float-level fact "this stored array contains a non-finite entry" is kept
alongside them: `pureAfin`, `liveAfin` and `liveBfin` record whether
`np.isfinite(..).all()` holds of `_pure_A.data`, `_A.data` and `_b`, and
are maintained at exactly the assignments of the corresponding matrix. -/
structure Alg (Np Nt : ℕ) where
  net : Network Np Nt
  g : Fin Nt → Fval
  gIterative : Bool
  settings : Settings
  rate : Fin Np → Fval
  value : Fin Np → Fval
  x : Option (Fin Np → Fval)
  initialGuess : Option (Fin Np → Fval)
  pureA : Option (Fin Np → Fin Np → ℚ)
  pureAfin : Option Bool
  liveA : Option (Fin Np → Fin Np → ℚ)
  liveAfin : Option Bool
  pureB : Option (Fin Np → ℚ)
  liveB : Option (Fin Np → ℚ)
  liveBfin : Option Bool
  solnAttr : Option ((Fin Np → ℚ) × Bool)

/-- The BC mask of line 247 on the algorithm state. -/
def Alg.bcMask (s : Alg Np Nt) : Fin Np → Bool :=
  bcPores s.rate s.value

/-- `Transport._validate_topology_health` (lines 242-252). -/
def Alg.validateTopologyHealth (s : Alg Np Nt) : Except String Unit :=
  if is_fully_connected s.net s.bcMask then Except.ok ()
  else Except.error clusteredMsg

/-- The pure Laplacian the algorithm state would build (conductances read
through `toQ`; a non-finite conductance is flagged by the health check
before the numbers are ever used). -/
def Alg.pureLap (s : Alg Np Nt) : Fin Np → Fin Np → ℚ :=
  pureLaplacian s.net fun t => (s.g t).toQ

/-- Whether every entry of the conductance array is finite.  A conductance
entry `g[t]` reaches the stored data of the Laplacian (the diagonals of
both endpoints sum the incident conductances and the off-diagonal entry is
`-g[t]`), so `np.isfinite(_pure_A.data).all()` holds exactly when this
does. -/
def Alg.gAllFinite (s : Alg Np Nt) : Bool :=
  decide (∀ t, (s.g t).isFinite = true)

/-- `Transport._validate_x0` (lines 226-232). -/
def validateX0 (x0 : Fin Np → Fval) : Except String Unit :=
  if ∀ i, (x0 i).isFinite = true then Except.ok ()
  else Except.error "x0 contains inf/nan values"

/-- `Transport._build_A` (lines 85-105): disable caching when the
conductance is an iterative property; drop the cached pure matrix when
caching is off; rebuild it if absent (recording the finiteness of the
conductances it is built from); assign a fresh copy of the cached pure
matrix — and its finiteness — to the live `A` (value semantics model
`self._pure_A.copy()`: later writes to the live matrix cannot reach the
cached one). -/
def Alg.buildA (s : Alg Np Nt) : Alg Np Nt :=
  let s1 := if s.gIterative then
    { s with settings := { s.settings with cache := false } } else s
  let s2 := if s1.settings.cache = false then
    { s1 with pureA := none, pureAfin := none } else s1
  let s3 := if s2.pureA = none then
    { s2 with pureA := some s2.pureLap, pureAfin := some s2.gAllFinite }
    else s2
  { s3 with liveA := s3.pureA, liveAfin := s3.pureAfin }

/-- `Transport._build_b` (lines 107-115): a zero vector (all finite),
stored pure and copied into the live `b`. -/
def Alg.buildB (s : Alg Np Nt) : Alg Np Nt :=
  { s with
    pureB := some fun _ => 0
    liveB := some fun _ => 0
    liveBfin := some true }

/-- `Transport._apply_BCs` lifted to the algorithm state: the `self.A` and
`self.b` property getters build them first when absent (lines 117-137),
then the BC passes update the live pair only.  Float finiteness of the
updated pair: a finite input pair gives finite `f` and finite updates;
a non-finite input Laplacian has a non-finite diagonal, so `f` is NaN and
lands on every value-BC diagonal and on `b[ind] = value*f`, while without
value BCs `A` is untouched and the `A @ x_BC` subtraction (`NaN * 0 = NaN`
in IEEE) keeps `b` non-finite — the pair stays non-finite either way.
`_validate_data_health` reads only the conjunction of the two flags, which
is therefore stored on both. -/
def Alg.applyBCsStep (s : Alg Np Nt) : Alg Np Nt :=
  let s1 := if s.liveA = none then s.buildA else s
  let s2 := if s1.liveB = none then s1.buildB else s1
  let sys := applyBCs
    { rate := s2.rate, value := s2.value,
      A := s2.liveA.getD fun _ _ => 0, b := s2.liveB.getD fun _ => 0 }
  let fin := s2.liveAfin.getD true && s2.liveBfin.getD true
  { s2 with
    liveA := some sys.A
    liveAfin := some fin
    liveB := some sys.b
    liveBfin := some fin }

/-- `Transport._validate_data_health` (lines 273-331): first the topology
check (line 281, which reads no matrix), then the short-circuit success of
line 283, `np.isfinite(self.A.data).all() and np.isfinite(self.b).all()`.
`self.A` and `self.b` are the lazy getters of lines 117-137: they return
the existing live matrix — possibly stale, e.g. left over from a previous
run — and build only when the live one is absent, so the check can both
mutate the lazy caches and pass on stale data.  The finiteness of the
stored float data is read off the `liveAfin`/`liveBfin` flags (the
rational content cannot carry NaN); the root-cause diagnosis on the
failing branch (a networkx dependency-graph walk over objects outside the
source slice) is abstracted into a single error value.  Returns the
verdict together with the state as the getters left it. -/
def Alg.validateDataHealth (s : Alg Np Nt) :
    Except String Unit × Alg Np Nt :=
  match s.validateTopologyHealth with
  | Except.error e => (Except.error e, s)
  | Except.ok _ =>
    let s1 := if s.liveA = none then s.buildA else s
    let s2 := if s1.liveB = none then s1.buildB else s1
    if s2.liveAfin.getD true && s2.liveBfin.getD true then (Except.ok (), s2)
    else (Except.error "Found nans in A matrix", s2)

/-- `Transport._update_A_and_b` (lines 217-224). -/
def Alg.updateAandB (s : Alg Np Nt) : Alg Np Nt :=
  s.buildA.buildB.applyBCsStep

/-- The `SolverAdapter` contract: `solve(A, b, x0) -> (x, exit_code)`. -/
def Solver (Np : ℕ) : Type :=
  (Fin Np → Fin Np → ℚ) → (Fin Np → ℚ) → (Fin Np → ℚ) → (Fin Np → ℚ) × ℤ

/-- `Transport._run_special` (lines 203-215) with the default relaxation
`w = 1`: re-validate data health, solve, store the solution on the
algorithm, rebuild `A` and `b` from the fresh solution, and update the
solution container (`is_converged` iff the exit code is 0). -/
def Alg.runSpecial (s : Alg Np Nt) (solver : Solver Np) (x0 : Fin Np → Fval) :
    Except String ((Fin Np → ℚ) × Bool) × Alg Np Nt :=
  match s.validateDataHealth with
  | (Except.error e, sh) => (Except.error e, sh)
  | (Except.ok _, sh) =>
    let res := solver (sh.liveA.getD fun _ _ => 0) (sh.liveB.getD fun _ => 0)
      (fun i => (x0 i).toQ)
    let s1 : Alg Np Nt := { sh with x := some fun i => Fval.fin (res.1 i) }
    let s2 := s1.updateAandB
    let soln : (Fin Np → ℚ) × Bool := (res.1, res.2 == 0)
    (Except.ok soln, { s2 with solnAttr := some soln })

/-- `Transport.run` (lines 168-201), with the solver already resolved (the
workspace default-solver lookup is outside the source slice).  The pair
returned is (what the call raises or returns, the state of the algorithm
object afterwards): a raise leaves the object exactly as mutated so far.
Order as in the source: settings validation, data-health validation, the
write of `x0` into the quantity field and `pore.initial_guess`, the `x0`
validation, the creation of the solution container, `_update_A_and_b`,
then `_run_special`. -/
def Alg.run (s : Alg Np Nt) (solver : Solver Np)
    (x0opt : Option (Fin Np → Fval)) :
    Except String ((Fin Np → ℚ) × Bool) × Alg Np Nt :=
  match validateSettings s.settings with
  | Except.error e => (Except.error e, s)
  | Except.ok _ =>
    match s.validateDataHealth with
    | (Except.error e, sh) => (Except.error e, sh)
    | (Except.ok _, sh) =>
      let x0 := x0opt.getD fun _ => Fval.fin 0
      let s1 : Alg Np Nt := { sh with x := some x0, initialGuess := some x0 }
      match validateX0 x0 with
      | Except.error e => (Except.error e, s1)
      | Except.ok _ =>
        let s2 : Alg Np Nt :=
          { s1 with solnAttr := some (fun i => (x0 i).toQ, false) }
        let s3 := s2.updateAandB
        s3.runSpecial solver x0

/-- Claim C6, evaluated at the failing input: a `Transport` algorithm whose
quantity and conductance settings were never configured still carries the
`TransportSettings` defaults (the empty string, with only `phase` set by
`__init__`), and `_validate_settings` — which tests `is None` — accepts
that state instead of raising a configuration error, so `run` proceeds
towards matrix work. -/
theorem claim6_default_settings_pass_validation (phaseName : String) :
    validateSettings
      { TransportSettings.defaults with phase := some phaseName } =
    Except.ok () := rfl

/-- A fully configured settings record. -/
def configuredSettings : Settings where
  phase := some "phase_01"
  quantity := some "pore.pressure"
  conductance := some "throat.hydraulic_conductance"
  cache := true

/-- A two-pore network with no throats: pore 1 is its own component. -/
def algDisc2 : Alg 2 0 where
  net := { conns := Fin.elim0, conns_ne := fun t => t.elim0 }
  g := Fin.elim0
  gIterative := false
  settings := configuredSettings
  rate := fun _ => Fval.nan
  value := fun i => if i = 0 then Fval.fin 1 else Fval.nan
  x := none
  initialGuess := none
  pureA := none
  pureAfin := none
  liveA := none
  liveAfin := none
  pureB := none
  liveB := none
  liveBfin := none
  solnAttr := none

/-- A three-pore network with no throats: pores 1 and 2 are unreachable. -/
def algDisc3 : Alg 3 0 where
  net := { conns := Fin.elim0, conns_ne := fun t => t.elim0 }
  g := Fin.elim0
  gIterative := false
  settings := configuredSettings
  rate := fun _ => Fval.nan
  value := fun i => if i = 0 then Fval.fin 1 else Fval.nan
  x := none
  initialGuess := none
  pureA := none
  pureAfin := none
  liveA := none
  liveAfin := none
  pureB := none
  liveB := none
  liveBfin := none
  solnAttr := none

/-- The pores no BC-bearing pore reaches. -/
def Alg.disconnectedPores (s : Alg Np Nt) : Finset (Fin Np) :=
  Finset.univ.filter fun i => i ∉ reachableFrom s.net s.bcMask

/-- Counterexample to claim C7 as stated: two networks whose
unreachable/disconnected pore sets differ (one pore versus two) raise the
very same fixed diagnostic, so the diagnostic cannot name (include) the
set of disconnected pores. -/
theorem claim7_counterexample :
    algDisc2.validateTopologyHealth = Except.error clusteredMsg ∧
    algDisc3.validateTopologyHealth = Except.error clusteredMsg ∧
    algDisc2.disconnectedPores.card = 1 ∧
    algDisc3.disconnectedPores.card = 2 :=
  ⟨rfl, rfl, by decide, by decide⟩

/-- Claim C7 (amended): whenever the network has a connected component
containing no pore with an active boundary condition, topology validation
fails with a fatal error, whose fixed message instructs the caller how to
compute and trim the disconnected pores but does not itself include the
unreachable set. -/
theorem claim7_unreachable_component_fails (s : Alg Np Nt)
    (h : is_fully_connected s.net s.bcMask = false) :
    s.validateTopologyHealth = Except.error clusteredMsg := by
  unfold Alg.validateTopologyHealth
  rw [h]
  rfl

/-- Witness for the amended C7 at `algDisc2`. -/
theorem claim7_witness :
    algDisc2.validateTopologyHealth = Except.error clusteredMsg :=
  claim7_unreachable_component_fails algDisc2 (by decide)

/-- `_build_A` never touches the quantity field, the initial guess or the
solution container. -/
lemma Alg.buildA_x (s : Alg Np Nt) : s.buildA.x = s.x := by
  unfold Alg.buildA
  dsimp only
  split_ifs <;> rfl

/-- `_build_A` never touches `pore.initial_guess`. -/
lemma Alg.buildA_initialGuess (s : Alg Np Nt) :
    s.buildA.initialGuess = s.initialGuess := by
  unfold Alg.buildA
  dsimp only
  split_ifs <;> rfl

/-- `_build_A` never touches the `soln` attribute. -/
lemma Alg.buildA_solnAttr (s : Alg Np Nt) :
    s.buildA.solnAttr = s.solnAttr := by
  unfold Alg.buildA
  dsimp only
  split_ifs <;> rfl

/-- `_build_b` never touches the solution-related fields. -/
lemma Alg.buildB_x (s : Alg Np Nt) : s.buildB.x = s.x := rfl

/-- `_build_b` never touches `pore.initial_guess`. -/
lemma Alg.buildB_initialGuess (s : Alg Np Nt) :
    s.buildB.initialGuess = s.initialGuess := rfl

/-- `_build_b` never touches the `soln` attribute. -/
lemma Alg.buildB_solnAttr (s : Alg Np Nt) :
    s.buildB.solnAttr = s.solnAttr := rfl

/-- `_apply_BCs` never touches the quantity field. -/
lemma Alg.applyBCsStep_x (s : Alg Np Nt) : s.applyBCsStep.x = s.x := by
  unfold Alg.applyBCsStep
  dsimp only
  split_ifs <;> simp [Alg.buildA_x, Alg.buildB_x]

/-- `_apply_BCs` never touches the `soln` attribute. -/
lemma Alg.applyBCsStep_solnAttr (s : Alg Np Nt) :
    s.applyBCsStep.solnAttr = s.solnAttr := by
  unfold Alg.applyBCsStep
  dsimp only
  split_ifs <;> simp [Alg.buildA_solnAttr, Alg.buildB_solnAttr]

/-- `_update_A_and_b` never touches the quantity field. -/
lemma Alg.updateAandB_x (s : Alg Np Nt) : s.updateAandB.x = s.x := by
  unfold Alg.updateAandB
  rw [Alg.applyBCsStep_x, Alg.buildB_x, Alg.buildA_x]

/-- `_update_A_and_b` never touches the `soln` attribute. -/
lemma Alg.updateAandB_solnAttr (s : Alg Np Nt) :
    s.updateAandB.solnAttr = s.solnAttr := by
  unfold Alg.updateAandB
  rw [Alg.applyBCsStep_solnAttr, Alg.buildB_solnAttr, Alg.buildA_solnAttr]

/-- `_validate_data_health` may build the lazy matrices through the
getters but never touches the quantity field. -/
lemma Alg.validateDataHealth_x (s : Alg Np Nt) :
    (s.validateDataHealth).2.x = s.x := by
  unfold Alg.validateDataHealth
  rcases s.validateTopologyHealth with e | u
  · rfl
  · dsimp only
    split_ifs <;> simp [Alg.buildA_x, Alg.buildB_x]

/-- `_validate_data_health` never touches `pore.initial_guess`. -/
lemma Alg.validateDataHealth_initialGuess (s : Alg Np Nt) :
    (s.validateDataHealth).2.initialGuess = s.initialGuess := by
  unfold Alg.validateDataHealth
  rcases s.validateTopologyHealth with e | u
  · rfl
  · dsimp only
    split_ifs <;> simp [Alg.buildA_initialGuess, Alg.buildB_initialGuess]

/-- `_validate_data_health` never touches the `soln` attribute. -/
lemma Alg.validateDataHealth_solnAttr (s : Alg Np Nt) :
    (s.validateDataHealth).2.solnAttr = s.solnAttr := by
  unfold Alg.validateDataHealth
  rcases s.validateTopologyHealth with e | u
  · rfl
  · dsimp only
    split_ifs <;> simp [Alg.buildA_solnAttr, Alg.buildB_solnAttr]

/-- Claim C8: `run(x0=x0)` with any non-finite entry in `x0` raises and
never consults the solver (the outcome is solver-independent and an
error); every all-finite `x0` passes the initial-guess validation, as does
the zero vector used when `x0` is omitted. -/
theorem claim8_run_rejects_nonfinite_x0 (s : Alg Np Nt)
    (x0 : Fin Np → Fval) :
    ((∃ i, (x0 i).isFinite = false) →
      ∀ sol sol' : Solver Np,
        s.run sol (some x0) = s.run sol' (some x0) ∧
        ∃ e, (s.run sol (some x0)).1 = Except.error e) ∧
    (∀ v : Fin Np → Fval, (∀ i, (v i).isFinite = true) →
      validateX0 v = Except.ok ()) ∧
    validateX0 (fun _ : Fin Np => Fval.fin 0) = Except.ok () := by
  refine ⟨?_, ?_, ?_⟩
  · rintro ⟨i, hi⟩ sol sol'
    have hx : validateX0 x0 = Except.error "x0 contains inf/nan values" := by
      unfold validateX0
      rw [if_neg]
      intro hall
      rw [hall i] at hi
      cases hi
    rcases hs : validateSettings s.settings with e | u
    · exact ⟨by simp [Alg.run, hs], e, by simp [Alg.run, hs]⟩
    · rcases hh : s.validateDataHealth with ⟨r, sh⟩
      rcases r with e | u
      · exact ⟨by simp [Alg.run, hs, hh], e, by simp [Alg.run, hs, hh]⟩
      · exact ⟨by simp [Alg.run, hs, hh, hx],
          "x0 contains inf/nan values", by simp [Alg.run, hs, hh, hx]⟩
  · intro v hv
    unfold validateX0
    rw [if_pos hv]
  · unfold validateX0
    exact if_pos fun _ => rfl

/-- A one-pore network with a value BC, a configured settings record and a
previously stored solution field of 5. -/
def cAlg5 : Alg 1 0 where
  net := { conns := Fin.elim0, conns_ne := fun t => t.elim0 }
  g := Fin.elim0
  gIterative := false
  settings := configuredSettings
  rate := fun _ => Fval.nan
  value := fun _ => Fval.fin 2
  x := some fun _ => Fval.fin 5
  initialGuess := none
  pureA := none
  pureAfin := none
  liveA := none
  liveAfin := none
  pureB := none
  liveB := none
  liveBfin := none
  solnAttr := none

/-- A trivial solver (returns the initial guess, exit code 0). -/
def cSol5 : Solver 1 := fun _ _ x0 => (x0, 0)

/-- A second trivial solver (used to exhibit solver-independence). -/
def cSol5b : Solver 1 := fun _ _ _ => (fun _ => 9, 1)

/-- An all-NaN initial guess on one pore. -/
def cX0nan : Fin 1 → Fval := fun _ => Fval.nan

/-- An all-finite initial guess on one pore. -/
def cX0fin : Fin 1 → Fval := fun _ => Fval.fin 3

/-- Witness for C8 at `cAlg5`: the NaN guess yields the same error under
two different solvers, and finite guesses pass the validation. -/
theorem claim8_witness :
    (cAlg5.run cSol5 (some cX0nan) = cAlg5.run cSol5b (some cX0nan) ∧
      ∃ e, (cAlg5.run cSol5 (some cX0nan)).1 = Except.error e) ∧
    validateX0 cX0fin = Except.ok () ∧
    validateX0 (fun _ : Fin 1 => Fval.fin 0) = Except.ok () :=
  ⟨(claim8_run_rejects_nonfinite_x0 cAlg5 cX0nan).1 ⟨0, rfl⟩ cSol5 cSol5b,
    (claim8_run_rejects_nonfinite_x0 cAlg5 cX0nan).2.1 cX0fin fun _ => rfl,
    (claim8_run_rejects_nonfinite_x0 cAlg5 cX0nan).2.2⟩

/-- Counterexample to claim C5 as stated: a `run` call that fails the
initial-guess validation (a NaN `x0`) raises, yet the previously stored
quantity field has been overwritten — lines 191-193 write `self.x = x0`
and `pore.initial_guess` before `_validate_x0` raises. -/
theorem claim5_counterexample :
    (cAlg5.run cSol5 (some cX0nan)).1 =
      Except.error "x0 contains inf/nan values" ∧
    (cAlg5.run cSol5 (some cX0nan)).2.x ≠ cAlg5.x :=
  ⟨rfl, by decide⟩

/-- Claim C5 (amended): the missing-settings and topological failures of
`run` raise with the algorithm state untouched, and a pre-solve
data-health failure raises having changed at most the lazy matrix caches
(quantity field, initial guess and `soln` attribute intact).  Two error
paths do mutate first: the non-finite-initial-guess failure raises before
the solver runs and before the solution container is created, but after
the quantity field and `pore.initial_guess` are overwritten with the
supplied `x0`; and when the pre-solve health check passes — which it can
on a stale live matrix even though the conductance now carries NaNs — the
re-check inside `_run_special` raises only after the quantity field and
the `soln` attribute have been overwritten.  The previously *returned*
solution container (a value the caller holds) is never mutated on any
path. -/
theorem claim5_error_paths (s : Alg Np Nt) (sol : Solver Np)
    (x0opt : Option (Fin Np → Fval)) :
    (∀ e, validateSettings s.settings = Except.error e →
      s.run sol x0opt = (Except.error e, s)) ∧
    (∀ e, validateSettings s.settings = Except.ok () →
      s.validateTopologyHealth = Except.error e →
      s.run sol x0opt = (Except.error e, s)) ∧
    (∀ e sh, validateSettings s.settings = Except.ok () →
      s.validateDataHealth = (Except.error e, sh) →
      s.run sol x0opt = (Except.error e, sh) ∧
      sh.x = s.x ∧ sh.initialGuess = s.initialGuess ∧
      sh.solnAttr = s.solnAttr) ∧
    (∀ x0 sh, validateSettings s.settings = Except.ok () →
      s.validateDataHealth = (Except.ok (), sh) →
      (∃ i, (x0 i).isFinite = false) →
      s.run sol (some x0) =
        (Except.error "x0 contains inf/nan values",
          { sh with x := some x0, initialGuess := some x0 }) ∧
      sh.solnAttr = s.solnAttr) ∧
    (∀ x0 sh e sh', validateSettings s.settings = Except.ok () →
      s.validateDataHealth = (Except.ok (), sh) →
      (∀ i, (x0 i).isFinite = true) →
      ({ sh with
          x := some x0
          initialGuess := some x0
          solnAttr := some (fun i => (x0 i).toQ, false) }
        : Alg Np Nt).updateAandB.validateDataHealth = (Except.error e, sh') →
      s.run sol (some x0) = (Except.error e, sh') ∧
      sh'.x = some x0 ∧
      sh'.solnAttr = some (fun i => (x0 i).toQ, false)) := by
  refine ⟨?_, ?_, ?_, ?_, ?_⟩
  · intro e hs
    simp [Alg.run, hs]
  · intro e hs ht
    have hh : s.validateDataHealth = (Except.error e, s) := by
      unfold Alg.validateDataHealth
      rw [ht]
    simp [Alg.run, hs, hh]
  · intro e sh hs hh
    have h2 : (s.validateDataHealth).2 = sh := by rw [hh]
    refine ⟨by simp [Alg.run, hs, hh], ?_, ?_, ?_⟩
    · rw [← h2]
      exact Alg.validateDataHealth_x s
    · rw [← h2]
      exact Alg.validateDataHealth_initialGuess s
    · rw [← h2]
      exact Alg.validateDataHealth_solnAttr s
  · rintro x0 sh hs hh ⟨i, hi⟩
    have hx : validateX0 x0 = Except.error "x0 contains inf/nan values" := by
      unfold validateX0
      rw [if_neg]
      intro hall
      rw [hall i] at hi
      cases hi
    have h2 : (s.validateDataHealth).2 = sh := by rw [hh]
    refine ⟨by simp [Alg.run, hs, hh, hx], ?_⟩
    rw [← h2]
    exact Alg.validateDataHealth_solnAttr s
  · intro x0 sh e sh' hs hh hfin hlate
    have hvx : validateX0 x0 = Except.ok () := by
      unfold validateX0
      rw [if_pos hfin]
    have h2 : (({ sh with
        x := some x0
        initialGuess := some x0
        solnAttr := some (fun i => (x0 i).toQ, false) }
          : Alg Np Nt).updateAandB.validateDataHealth).2 = sh' := by
      rw [hlate]
    refine ⟨?_, ?_, ?_⟩
    · simp [Alg.run, Alg.runSpecial, hs, hh, hvx, hlate]
    · rw [← h2, Alg.validateDataHealth_x, Alg.updateAandB_x]
    · rw [← h2, Alg.validateDataHealth_solnAttr, Alg.updateAandB_solnAttr]

/-- A failing settings validation input: quantity set to Python `None`. -/
def cAlg5none : Alg 1 0 :=
  { cAlg5 with settings := { configuredSettings with quantity := none } }

/-- State mimicking a second `run` after the conductance acquired a NaN:
the live matrix and `b` left by the first run are finite while the cache
is empty, so the pre-solve health check passes on the stale matrix and
the rebuild inside `run` reintroduces the NaN. -/
def wAlgStale : Alg 2 1 where
  net := net21
  g := fun _ => Fval.nan
  gIterative := false
  settings := configuredSettings
  rate := fun _ => Fval.nan
  value := fun i => if i = 0 then Fval.fin 1 else Fval.nan
  x := some fun _ => Fval.fin 5
  initialGuess := some fun _ => Fval.fin 0
  pureA := none
  pureAfin := none
  liveA := some fun i j => if i = j then 2 else -2
  liveAfin := some true
  pureB := some fun _ => 0
  liveB := some fun _ => 0
  liveBfin := some true
  solnAttr := some (fun _ => 5, true)

/-- A trivial solver on two pores. -/
def wSol5 : Solver 2 := fun _ _ x0 => (x0, 0)

/-- An all-finite (zero) initial guess on two pores. -/
def wX0fin2 : Fin 2 → Fval := fun _ => Fval.fin 0

/-- Witness for the amended C5: a settings failure returns the unchanged
state, and on `wAlgStale` the pre-solve check passes on the stale finite
matrix, so `run` raises the data-health error from inside `_run_special`
with the quantity field and `soln` attribute already overwritten. -/
theorem claim5_witness :
    cAlg5none.run cSol5 (some cX0fin) =
      (Except.error "\x27quantity\x27 hasn\x27t been defined on this algorithm",
        cAlg5none) ∧
    (wAlgStale.run wSol5 (some wX0fin2)).1 =
      Except.error "Found nans in A matrix" ∧
    (wAlgStale.run wSol5 (some wX0fin2)).2.x = some wX0fin2 ∧
    (wAlgStale.run wSol5 (some wX0fin2)).2.solnAttr =
      some (fun i => (wX0fin2 i).toQ, false) := by
  obtain ⟨hrun, hx, hsoln⟩ :=
    (claim5_error_paths wAlgStale wSol5 (some wX0fin2)).2.2.2.2
      wX0fin2 wAlgStale "Found nans in A matrix" _
      rfl rfl (fun _ => rfl) rfl
  exact ⟨(claim5_error_paths cAlg5none cSol5 (some cX0fin)).1 _ rfl,
    by rw [hrun], by rw [hrun]; exact hx, by rw [hrun]; exact hsoln⟩

/-- `_build_A` under enabled, coherent caching: the cached pure matrix ends
up as the Laplacian of the current conductance, the live `A` receives a
copy of it, and the fields that govern the cache are untouched. -/
lemma Alg.buildA_cached_fields (s : Alg Np Nt) (hc : s.settings.cache = true)
    (hit : s.gIterative = false)
    (hp : s.pureA = none ∨ s.pureA = some s.pureLap) :
    s.buildA.pureA = some s.pureLap ∧ s.buildA.liveA = some s.pureLap ∧
    s.buildA.liveB = s.liveB ∧ s.buildA.settings = s.settings ∧
    s.buildA.gIterative = s.gIterative ∧ s.buildA.net = s.net ∧
    s.buildA.g = s.g := by
  rcases hp with hp | hp <;>
    refine ⟨?_, ?_, ?_, ?_, ?_, ?_, ?_⟩ <;>
      simp [Alg.buildA, hit, hc, hp, Alg.pureLap]

/-- `_build_b` only writes the `b` caches. -/
lemma Alg.buildB_cache_fields (s : Alg Np Nt) :
    s.buildB.pureA = s.pureA ∧ s.buildB.liveA = s.liveA ∧
    s.buildB.liveB = some (fun _ => 0) ∧ s.buildB.settings = s.settings ∧
    s.buildB.gIterative = s.gIterative ∧ s.buildB.net = s.net ∧
    s.buildB.g = s.g :=
  ⟨rfl, rfl, rfl, rfl, rfl, rfl, rfl⟩

/-- `_apply_BCs` with both live matrices present does not touch the cached
pure matrix or the fields governing it. -/
lemma Alg.applyBCsStep_cache_fields (s : Alg Np Nt) (hA : ¬s.liveA = none)
    (hB : ¬s.liveB = none) :
    s.applyBCsStep.pureA = s.pureA ∧ s.applyBCsStep.settings = s.settings ∧
    s.applyBCsStep.gIterative = s.gIterative ∧
    s.applyBCsStep.net = s.net ∧ s.applyBCsStep.g = s.g := by
  unfold Alg.applyBCsStep
  dsimp only
  rw [if_neg hA, if_neg hB]
  exact ⟨rfl, rfl, rfl, rfl, rfl⟩

/-- One `_update_A_and_b` pass under enabled, coherent caching: the cached
pure matrix equals the BC-free Laplacian afterwards, and the fields that
govern the cache are untouched. -/
lemma Alg.updateAandB_cached (s : Alg Np Nt) (hc : s.settings.cache = true)
    (hit : s.gIterative = false)
    (hp : s.pureA = none ∨ s.pureA = some s.pureLap) :
    s.updateAandB.pureA = some s.pureLap ∧
    s.updateAandB.settings.cache = true ∧
    s.updateAandB.gIterative = false ∧
    s.updateAandB.pureLap = s.pureLap := by
  obtain ⟨hA1, hA2, _, hA4, hA5, hA6, hA7⟩ :=
    Alg.buildA_cached_fields s hc hit hp
  obtain ⟨hB1, hB2, hB3, hB4, hB5, hB6, hB7⟩ :=
    Alg.buildB_cache_fields s.buildA
  have hlA : ¬s.buildA.buildB.liveA = none := by
    rw [hB2, hA2]
    exact fun h => Option.noConfusion h
  have hlB : ¬s.buildA.buildB.liveB = none := by
    rw [hB3]
    exact fun h => Option.noConfusion h
  obtain ⟨hS1, hS2, hS3, hS4, hS5⟩ :=
    Alg.applyBCsStep_cache_fields s.buildA.buildB hlA hlB
  unfold Alg.updateAandB
  refine ⟨?_, ?_, ?_, ?_⟩
  · rw [hS1, hB1, hA1]
  · rw [hS2, hB4, hA4, hc]
  · rw [hS3, hB5, hA5, hit]
  · unfold Alg.pureLap
    rw [hS4, hS5, hB6, hB7, hA6, hA7]

/-- Claim C9: the cached pure matrix is never mutated by BC application —
`_build_A` assigns a fresh copy of the cached pure matrix to the live `A`,
and after any number of `_update_A_and_b` passes (caching enabled,
conductance not iterative, cache empty or coherent) the cached pure matrix
still equals the BC-free graph Laplacian of the conductance array. -/
theorem claim9_pure_cache_never_mutated (s : Alg Np Nt)
    (hc : s.settings.cache = true) (hit : s.gIterative = false)
    (hp : s.pureA = none ∨ s.pureA = some s.pureLap) :
    s.buildA.liveA = some s.pureLap ∧
    ∀ n : ℕ, (Alg.updateAandB^[n + 1] s).pureA = some s.pureLap := by
  have main : ∀ n : ℕ,
      (Alg.updateAandB^[n + 1] s).pureA = some s.pureLap ∧
      (Alg.updateAandB^[n + 1] s).settings.cache = true ∧
      (Alg.updateAandB^[n + 1] s).gIterative = false ∧
      (Alg.updateAandB^[n + 1] s).pureLap = s.pureLap := by
    intro n
    induction n with
    | zero =>
      simp only [Nat.zero_add, Function.iterate_one]
      exact Alg.updateAandB_cached s hc hit hp
    | succ n ih =>
      obtain ⟨h1, h2, h3, h4⟩ := ih
      have h' := Alg.updateAandB_cached (Alg.updateAandB^[n + 1] s) h2 h3
        (Or.inr (by rw [h1, h4]))
      rw [Function.iterate_succ_apply']
      exact ⟨h'.1.trans (by rw [h4]), h'.2.1, h'.2.2.1, h'.2.2.2.trans h4⟩
  exact ⟨(Alg.buildA_cached_fields s hc hit hp).2.1, fun n => (main n).1⟩

/-- A two-pore, one-throat algorithm state with empty cache. -/
def cAlg9 : Alg 2 1 where
  net := net21
  g := fun _ => Fval.fin 1
  gIterative := false
  settings := configuredSettings
  rate := fun _ => Fval.nan
  value := fun i => if i = 0 then Fval.fin 1 else Fval.nan
  x := none
  initialGuess := none
  pureA := none
  pureAfin := none
  liveA := none
  liveAfin := none
  pureB := none
  liveB := none
  liveBfin := none
  solnAttr := none

/-- Witness for C9 at `cAlg9`. -/
theorem claim9_witness :
    cAlg9.buildA.liveA = some cAlg9.pureLap ∧
    (Alg.updateAandB^[1] cAlg9).pureA = some cAlg9.pureLap :=
  ⟨(claim9_pure_cache_never_mutated cAlg9 rfl rfl (Or.inl rfl)).1,
    (claim9_pure_cache_never_mutated cAlg9 rfl rfl (Or.inl rfl)).2 0⟩

end OpenPNM
